import Mathlib

/-!
Verification of `Multiplayer-Game.py`: a shallow embedding of the game's
level-advance logic, the remote-player snapshot handler, the interpolation
helper, the update throttle and the outbound emit gate, together with
theorems settling the specification claims.
Python floats and ints are modelled as `ℚ` and `Int`; the Python dicts
(`self.levels`, `self.remote_players`, inbound snapshots) are modelled as
association lists with dict semantics (first binding wins on lookup,
iteration in list order).
-/

namespace MultiplayerGame

/-- `lerp(a, b, t) = a + (b - a) * t` (source line 11). -/
def lerp (a b t : ℚ) : ℚ := a + (b - a) * t

/-- The throttle test in `Game.update` (line 358):
`current_time - self.last_update_time > self.update_interval`, taking
`elapsed = current_time - last_update_time`. -/
def should_publish (elapsed interval : ℚ) : Bool := decide (interval < elapsed)

/-- `self.update_interval = 0.05` (line 240). -/
def update_interval : ℚ := 5 / 100

/-- A pygame `Rect(x, y, w, h)` as used for platforms. -/
structure Rect where
  x : Int
  y : Int
  w : Int
  h : Int
deriving DecidableEq, Repr

/-- A `Portal(x, y, radius)`; the animation angle plays no role in any claim. -/
structure Portal where
  x : Int
  y : Int
  radius : Int
deriving DecidableEq, Repr

/-- One entry of the `self.levels` dict: start position, platforms, optional portal. -/
structure Level where
  start : Int × Int
  platforms : List Rect
  portal : Option Portal
deriving DecidableEq, Repr

/-- The `Game` state touched by `_advance_level_local` (lines 314-325). -/
structure GameState where
  levels : List (Nat × Level)
  current_level : Nat
  player_x : Int
  player_y : Int
  platforms : List Rect
  portal : Option Portal
  score : Nat
  running : Bool
deriving DecidableEq, Repr

/-- `max(self.levels.keys())` over the association list. -/
def maxLevelKey (levels : List (Nat × Level)) : Nat :=
  levels.foldl (fun m q => max m q.1) 0

/-- `self.levels[k]` as a dict lookup; `none` models a `KeyError`. -/
def lookupLevel (levels : List (Nat × Level)) (k : Nat) : Option Level :=
  (levels.find? (fun q => q.1 = k)).map (fun q => q.2)

/-- `Game._advance_level_local` (lines 314-325).  In the advancing branch the
code increments `current_level`, moves the player to the new level's start,
replaces platforms and portal, and sets `score = current_level`; in the
terminal branch it only sets `running = False`.  A missing level entry
(uncaught `KeyError`) is modelled as `none`. -/
def advance_level_local (s : GameState) : Option GameState :=
  if s.current_level < maxLevelKey s.levels then
    match lookupLevel s.levels (s.current_level + 1) with
    | some lvl =>
        some { s with
          current_level := s.current_level + 1,
          player_x := lvl.start.1,
          player_y := lvl.start.2,
          platforms := lvl.platforms,
          portal := lvl.portal,
          score := s.current_level + 1 }
    | none => none
  else
    some { s with running := false }

/-- `Game.advance_level_sync` (lines 327-329): the networked callback simply
calls `_advance_level_local`. -/
def advance_level_sync (s : GameState) : Option GameState :=
  advance_level_local s

/-- The concrete `self.levels` dict built in `Game.__init__` (lines 243-264),
with `WIDTH = 800`, `HEIGHT = 600`. -/
def initial_levels : List (Nat × Level) :=
  [ (1, { start := (50, 500),
          platforms := [⟨0, 550, 800, 50⟩, ⟨150, 450, 150, 20⟩,
                        ⟨350, 350, 150, 20⟩, ⟨550, 250, 150, 20⟩],
          portal := some ⟨700, 500, 30⟩ }),
    (2, { start := (50, 500),
          platforms := [⟨0, 550, 800, 50⟩, ⟨100, 400, 150, 20⟩,
                        ⟨300, 300, 150, 20⟩, ⟨500, 200, 150, 20⟩],
          portal := none }) ]

/-- One value of the `self.remote_players` dict (lines 98-103). -/
structure RemoteEntry where
  current_x : ℚ
  current_y : ℚ
  target_x : ℚ
  target_y : ℚ
deriving DecidableEq, Repr

/-- The position fields the `player_update` handler reads from one inbound
`pdata` value (`pdata['x']`, `pdata['y']`; username and score are not used
by the handler). -/
structure SnapPos where
  x : ℚ
  y : ℚ
deriving DecidableEq, Repr

/-- An inbound `player_update` snapshot: a dict mapping player ids to data,
as an association list in dict iteration order. -/
abbrev Snapshot := List (String × SnapPos)

/-- The `self.remote_players` dict, in dict insertion order. -/
abbrev Store := List (String × RemoteEntry)

/-- `pid in self.remote_players`: dict membership on the association list. -/
def containsKey : Store → String → Bool
  | [], _ => false
  | q :: rest, pid => q.1 = pid || containsKey rest pid

/-- `pid in data` for a snapshot. -/
def snapHasKey : Snapshot → String → Bool
  | [], _ => false
  | q :: rest, pid => q.1 = pid || snapHasKey rest pid

/-- `self.remote_players[pid]`: dict lookup, `none` when absent. -/
def lookupEntry : Store → String → Option RemoteEntry
  | [], _ => none
  | q :: rest, pid => if q.1 = pid then some q.2 else lookupEntry rest pid

/-- `data[pid]` for a snapshot. -/
def snapLookup : Snapshot → String → Option SnapPos
  | [], _ => none
  | q :: rest, pid => if q.1 = pid then some q.2 else snapLookup rest pid

/-- The in-place update `self.remote_players[pid]['target_x'] = ...;
self.remote_players[pid]['target_y'] = ...` (lines 105-106). -/
def setTarget (pid : String) (x y : ℚ) (st : Store) : Store :=
  st.map (fun q =>
    if q.1 = pid then (q.1, { q.2 with target_x := x, target_y := y }) else q)

/-- One iteration of the `for pid, pdata in data.items()` loop of
`on_player_update` (lines 94-106).  `selfId` is `self.local_player_id`
(`none` while the id is unassigned; `pid == None` is false in Python, so the
skip test is `selfId = some pid`). -/
def processEntry (selfId : Option String) (st : Store) (e : String × SnapPos) : Store :=
  if selfId = some e.1 then st
  else if containsKey st e.1 then setTarget e.1 e.2.x e.2.y st
  else st ++ [(e.1, ⟨e.2.x, e.2.y, e.2.x, e.2.y⟩)]

/-- The full `on_player_update` handler (lines 91-110): fold the per-entry
loop over the snapshot, then remove every stored player whose id is not a
key of the snapshot. -/
def on_player_update (selfId : Option String) (st : Store) (snap : Snapshot) : Store :=
  ((snap.foldl (processEntry selfId) st).filter (fun q => snapHasKey snap q.1))

/-- The outbound message payload built in `Game.update` (lines 359-364). -/
structure PlayerMsg where
  x : Int
  y : Int
  username : String
  score : Nat
deriving DecidableEq, Repr

/-- The socket client state `emit_update` inspects: `connected_attr = none`
models the singleplayer `DummySocket`, which has no `connected` attribute;
`some b` models a real client whose `connected` flag is `b`. -/
structure SioState where
  connected_attr : Option Bool
deriving DecidableEq, Repr

/-- `SocketManager.emit_update` (lines 134-137): emit `player_update` iff
`hasattr(self.sio, 'connected') and self.sio.connected`; the returned pair
is the (unchanged) socket state and the list of messages sent. -/
def emit_update (sio : SioState) (d : PlayerMsg) :
    SioState × List (String × PlayerMsg) :=
  if sio.connected_attr = some true then (sio, [("player_update", d)])
  else (sio, [])

/-! ### Helper lemmas about the remote-player store -/

theorem containsKey_cons (q : String × RemoteEntry) (rest : Store) (pid : String) :
    containsKey (q :: rest) pid = true ↔ q.1 = pid ∨ containsKey rest pid = true := by
  simp [containsKey]

theorem containsKey_of_lookup (st : Store) (pid : String) (e : RemoteEntry)
    (h : lookupEntry st pid = some e) : containsKey st pid = true := by
  induction st with
  | nil => simp [lookupEntry] at h
  | cons q rest ih =>
    rw [containsKey_cons]
    by_cases hq : q.1 = pid
    · exact Or.inl hq
    · rw [lookupEntry, if_neg hq] at h
      exact Or.inr (ih h)

theorem lookupEntry_none_iff (st : Store) (pid : String) :
    lookupEntry st pid = none ↔ containsKey st pid = false := by
  induction st with
  | nil => simp [lookupEntry, containsKey]
  | cons q rest ih =>
    by_cases hq : q.1 = pid <;> simp [lookupEntry, containsKey, hq, ih]

theorem lookupEntry_setTarget (p : String) (x y : ℚ) (st : Store) (pid : String) :
    lookupEntry (setTarget p x y st) pid =
      if pid = p then
        (lookupEntry st pid).map (fun e => { e with target_x := x, target_y := y })
      else lookupEntry st pid := by
  induction st with
  | nil => by_cases h : pid = p <;> simp [setTarget, lookupEntry, h]
  | cons q rest ih =>
    by_cases hqp : q.1 = p <;> by_cases hq1 : q.1 = pid
    · have hpp : pid = p := hq1 ▸ hqp
      simp [setTarget, lookupEntry, hqp, hq1, hpp]
    · have hpp : ¬ pid = p := fun h => hq1 (h ▸ hqp)
      simp only [setTarget, List.map_cons, if_pos hqp] at *
      simp [lookupEntry, hq1, hpp, ih]
    · have hpp : ¬ pid = p := fun h => hqp (hq1.trans h)
      simp only [setTarget, List.map_cons, if_neg hqp] at *
      simp [lookupEntry, hq1, hpp]
    · simp only [setTarget, List.map_cons, if_neg hqp] at *
      simp [lookupEntry, hq1, ih]

theorem containsKey_setTarget (p : String) (x y : ℚ) (st : Store) (pid : String) :
    containsKey (setTarget p x y st) pid = containsKey st pid := by
  induction st with
  | nil => rfl
  | cons q rest ih =>
    by_cases hqp : q.1 = p
    · simp only [setTarget, List.map_cons, if_pos hqp] at *
      simp [containsKey, hqp, ih]
    · simp only [setTarget, List.map_cons, if_neg hqp] at *
      simp [containsKey, ih]

theorem lookupEntry_append_single (st : Store) (k : String) (e : RemoteEntry)
    (pid : String) :
    lookupEntry (st ++ [(k, e)]) pid =
      if containsKey st pid = true then lookupEntry st pid
      else if k = pid then some e else none := by
  induction st with
  | nil => simp [lookupEntry, containsKey]
  | cons q rest ih =>
    by_cases hq : q.1 = pid
    · simp [lookupEntry, containsKey, hq]
    · by_cases hc : containsKey rest pid = true <;>
        simp [lookupEntry, containsKey, hq, hc, ih]

theorem containsKey_append_single (st : Store) (k : String) (e : RemoteEntry)
    (pid : String) :
    containsKey (st ++ [(k, e)]) pid = true ↔
      containsKey st pid = true ∨ k = pid := by
  induction st with
  | nil => simp [containsKey]
  | cons q rest ih => by_cases hq : q.1 = pid <;> simp [containsKey, hq, ih]

theorem snapHasKey_of_lookup (snap : Snapshot) (pid : String) (pos : SnapPos)
    (h : snapLookup snap pid = some pos) : snapHasKey snap pid = true := by
  induction snap with
  | nil => simp [snapLookup] at h
  | cons q rest ih =>
    by_cases hq : q.1 = pid
    · simp [snapHasKey, hq]
    · rw [snapLookup, if_neg hq] at h
      simp [snapHasKey, hq, ih h]

theorem snapHasKey_iff_mem (snap : Snapshot) (pid : String) :
    snapHasKey snap pid = true ↔ pid ∈ snap.map Prod.fst := by
  induction snap with
  | nil => simp [snapHasKey]
  | cons e rest ih =>
    simp only [snapHasKey, Bool.or_eq_true, decide_eq_true_eq, List.map_cons,
      List.mem_cons, ih]
    constructor
    · rintro (h | h)
      · exact Or.inl h.symm
      · exact Or.inr h
    · rintro (h | h)
      · exact Or.inl h.symm
      · exact Or.inr h

theorem lookupEntry_processEntry_other (selfId : Option String)
    (st : Store) (e : String × SnapPos) (pid : String) (h : ¬ e.1 = pid) :
    lookupEntry (processEntry selfId st e) pid = lookupEntry st pid := by
  unfold processEntry
  by_cases hs : selfId = some e.1
  · rw [if_pos hs]
  · by_cases hc : containsKey st e.1 = true
    · rw [if_neg hs, if_pos hc, lookupEntry_setTarget,
        if_neg (fun hh : pid = e.1 => h hh.symm)]
    · rw [if_neg hs, if_neg hc, lookupEntry_append_single]
      by_cases hcp : containsKey st pid = true
      · simp [hcp]
      · have hn : lookupEntry st pid = none :=
          (lookupEntry_none_iff st pid).mpr (by simpa using hcp)
        simp [hcp, h, hn]

theorem containsKey_processEntry_other (selfId : Option String)
    (st : Store) (e : String × SnapPos) (pid : String) (h : ¬ e.1 = pid) :
    containsKey (processEntry selfId st e) pid = containsKey st pid := by
  unfold processEntry
  by_cases hs : selfId = some e.1
  · rw [if_pos hs]
  · by_cases hc : containsKey st e.1 = true
    · rw [if_neg hs, if_pos hc, containsKey_setTarget]
    · rw [if_neg hs, if_neg hc]
      have happ := containsKey_append_single st e.1 ⟨e.2.x, e.2.y, e.2.x, e.2.y⟩ pid
      by_cases hcp : containsKey st pid = true
      · rw [hcp, happ.mpr (Or.inl hcp)]
      · have hx : ¬ containsKey (st ++ [(e.1, ⟨e.2.x, e.2.y, e.2.x, e.2.y⟩)]) pid = true :=
          fun hh => (happ.mp hh).elim (fun a => hcp a) (fun a => h a)
        simp only [Bool.not_eq_true] at hx hcp
        rw [hx, hcp]

theorem lookupEntry_foldl_absent (selfId : Option String) (snap : Snapshot) :
    ∀ (st : Store) (pid : String), snapHasKey snap pid = false →
      lookupEntry (snap.foldl (processEntry selfId) st) pid = lookupEntry st pid := by
  induction snap with
  | nil => intro st pid _; rfl
  | cons e rest ih =>
    intro st pid h
    simp only [snapHasKey, Bool.or_eq_false_iff, decide_eq_false_iff_not] at h
    rw [List.foldl_cons, ih _ _ h.2, lookupEntry_processEntry_other _ _ _ _ h.1]

theorem containsKey_foldl_processEntry (selfId : Option String) (snap : Snapshot) :
    ∀ (st : Store) (pid : String),
      containsKey (snap.foldl (processEntry selfId) st) pid = true ↔
        containsKey st pid = true ∨ (snapHasKey snap pid = true ∧ ¬ selfId = some pid) := by
  induction snap with
  | nil => intro st pid; simp [snapHasKey]
  | cons e rest ih =>
    intro st pid
    rw [List.foldl_cons, ih]
    have hpe : containsKey (processEntry selfId st e) pid = true ↔
        containsKey st pid = true ∨ (e.1 = pid ∧ ¬ selfId = some pid) := by
      unfold processEntry
      by_cases hs : selfId = some e.1
      · rw [if_pos hs]
        constructor
        · exact Or.inl
        · rintro (h | ⟨he, hn⟩)
          · exact h
          · exact absurd (he ▸ hs) hn
      · by_cases hc : containsKey st e.1 = true
        · rw [if_neg hs, if_pos hc, containsKey_setTarget]
          constructor
          · exact Or.inl
          · rintro (h | ⟨he, _⟩)
            · exact h
            · exact he ▸ hc
        · rw [if_neg hs, if_neg hc, containsKey_append_single]
          constructor
          · rintro (h | he)
            · exact Or.inl h
            · exact Or.inr ⟨he, fun hx => hs (by rw [hx, he])⟩
          · rintro (h | ⟨he, _⟩)
            · exact Or.inl h
            · exact Or.inr he
    rw [hpe]
    simp only [snapHasKey, Bool.or_eq_true, decide_eq_true_eq]
    tauto

theorem containsKey_filter_key (f : String → Bool) (st : Store) (pid : String) :
    containsKey (st.filter (fun q => f q.1)) pid = (containsKey st pid && f pid) := by
  induction st with
  | nil => simp [containsKey]
  | cons q rest ih =>
    by_cases hq : q.1 = pid
    · subst hq
      cases hfq : f q.1
      · simp [List.filter_cons, hfq, containsKey, ih]
      · simp [List.filter_cons, hfq, containsKey]
    · cases hfq : f q.1
      · simp [List.filter_cons, hfq, containsKey, hq, ih]
      · simp [List.filter_cons, hfq, containsKey, hq, ih]

theorem lookupEntry_filter_key (f : String → Bool) (st : Store) (pid : String)
    (h : f pid = true) :
    lookupEntry (st.filter (fun q => f q.1)) pid = lookupEntry st pid := by
  induction st with
  | nil => simp
  | cons q rest ih =>
    by_cases hq : q.1 = pid
    · subst hq
      simp [List.filter_cons, h, lookupEntry]
    · cases hfq : f q.1
      · have hn : ¬ q.1 = pid := hq
        simp [List.filter_cons, hfq, lookupEntry, hn, ih]
      · simp [List.filter_cons, hfq, lookupEntry, hq, ih]

/-- Membership characterization of the full handler: after `on_player_update`
a pid is stored iff it is a key of the snapshot and (it was already stored, or
it was insertable: not filtered as self). -/
theorem containsKey_on_player_update (selfId : Option String) (st : Store)
    (snap : Snapshot) (pid : String) :
    containsKey (on_player_update selfId st snap) pid = true ↔
      (containsKey st pid = true ∨ (snapHasKey snap pid = true ∧ ¬ selfId = some pid)) ∧
        snapHasKey snap pid = true := by
  unfold on_player_update
  rw [containsKey_filter_key]
  rw [Bool.and_eq_true]
  rw [containsKey_foldl_processEntry]

theorem foldl_processEntry_existing (selfId : Option String) (snap : Snapshot) :
    ∀ (st : Store) (pid : String) (x y : ℚ) (ent : RemoteEntry),
      (snap.map Prod.fst).Nodup → ¬ selfId = some pid →
      lookupEntry st pid = some ent → snapLookup snap pid = some ⟨x, y⟩ →
      lookupEntry (snap.foldl (processEntry selfId) st) pid =
        some ⟨ent.current_x, ent.current_y, x, y⟩ := by
  induction snap with
  | nil => intro st pid x y ent _ _ _ hsnap; simp [snapLookup] at hsnap
  | cons e rest ih =>
    intro st pid x y ent hnd hself hst hsnap
    rw [List.map_cons] at hnd
    rw [List.foldl_cons]
    by_cases he : e.1 = pid
    · subst he
      have he2 : e.2 = ⟨x, y⟩ := by
        rw [snapLookup, if_pos rfl] at hsnap; exact Option.some.inj hsnap
      have hrest : snapHasKey rest e.1 = false := by
        have hmem := (List.nodup_cons.mp hnd).1
        cases hrk : snapHasKey rest e.1
        · rfl
        · exact absurd ((snapHasKey_iff_mem rest e.1).mp hrk) hmem
      rw [lookupEntry_foldl_absent _ _ _ _ hrest]
      unfold processEntry
      rw [if_neg hself, if_pos (containsKey_of_lookup st e.1 ent hst),
        lookupEntry_setTarget]
      simp [hst, he2]
    · have hst' : lookupEntry (processEntry selfId st e) pid = some ent := by
        rw [lookupEntry_processEntry_other _ _ _ _ he]; exact hst
      have hsnap' : snapLookup rest pid = some ⟨x, y⟩ := by
        rw [snapLookup, if_neg he] at hsnap; exact hsnap
      exact ih _ _ _ _ _ (List.nodup_cons.mp hnd).2 hself hst' hsnap'

theorem foldl_processEntry_new (selfId : Option String) (snap : Snapshot) :
    ∀ (st : Store) (pid : String) (x y : ℚ),
      (snap.map Prod.fst).Nodup → ¬ selfId = some pid →
      containsKey st pid = false → snapLookup snap pid = some ⟨x, y⟩ →
      lookupEntry (snap.foldl (processEntry selfId) st) pid = some ⟨x, y, x, y⟩ := by
  induction snap with
  | nil => intro st pid x y _ _ _ hsnap; simp [snapLookup] at hsnap
  | cons e rest ih =>
    intro st pid x y hnd hself hst hsnap
    rw [List.map_cons] at hnd
    rw [List.foldl_cons]
    by_cases he : e.1 = pid
    · subst he
      have he2 : e.2 = ⟨x, y⟩ := by
        rw [snapLookup, if_pos rfl] at hsnap; exact Option.some.inj hsnap
      have hrest : snapHasKey rest e.1 = false := by
        have hmem := (List.nodup_cons.mp hnd).1
        cases hrk : snapHasKey rest e.1
        · rfl
        · exact absurd ((snapHasKey_iff_mem rest e.1).mp hrk) hmem
      rw [lookupEntry_foldl_absent _ _ _ _ hrest]
      unfold processEntry
      rw [if_neg hself, if_neg (by simp [hst]), lookupEntry_append_single]
      simp [hst, he2]
    · have hst' : containsKey (processEntry selfId st e) pid = false := by
        rw [containsKey_processEntry_other _ _ _ _ he]; exact hst
      have hsnap' : snapLookup rest pid = some ⟨x, y⟩ := by
        rw [snapLookup, if_neg he] at hsnap; exact hsnap
      exact ih _ _ _ _ (List.nodup_cons.mp hnd).2 hself hst' hsnap'

/-- Full-handler version of `foldl_processEntry_existing`. -/
theorem on_player_update_existing (selfId : Option String) (st : Store)
    (snap : Snapshot) (pid : String) (x y : ℚ) (ent : RemoteEntry)
    (hnd : (snap.map Prod.fst).Nodup) (hself : ¬ selfId = some pid)
    (hst : lookupEntry st pid = some ent) (hsnap : snapLookup snap pid = some ⟨x, y⟩) :
    lookupEntry (on_player_update selfId st snap) pid =
      some ⟨ent.current_x, ent.current_y, x, y⟩ := by
  unfold on_player_update
  rw [lookupEntry_filter_key _ _ _ (snapHasKey_of_lookup snap pid ⟨x, y⟩ hsnap)]
  exact foldl_processEntry_existing selfId snap st pid x y ent hnd hself hst hsnap

/-- Full-handler version of `foldl_processEntry_new`. -/
theorem on_player_update_new (selfId : Option String) (st : Store)
    (snap : Snapshot) (pid : String) (x y : ℚ)
    (hnd : (snap.map Prod.fst).Nodup) (hself : ¬ selfId = some pid)
    (hst : containsKey st pid = false) (hsnap : snapLookup snap pid = some ⟨x, y⟩) :
    lookupEntry (on_player_update selfId st snap) pid = some ⟨x, y, x, y⟩ := by
  unfold on_player_update
  rw [lookupEntry_filter_key _ _ _ (snapHasKey_of_lookup snap pid ⟨x, y⟩ hsnap)]
  exact foldl_processEntry_new selfId snap st pid x y hnd hself hst hsnap

/-! ### Claim theorems -/

/-- C1: from `current_level = 1` (the only level of the game's table with a
next level defined), triggering the portal-collision advance and then the
`advance_level` server echo (`advance_level_sync`) leaves `current_level = 2`,
not 3: the increment is applied exactly once (the second trigger falls into
the terminal branch since level 2 is the maximum key). -/
theorem double_advance_applied_once (s : GameState)
    (hlv : s.levels = initial_levels) (hcl : s.current_level = 1) :
    ((advance_level_local s).bind advance_level_sync).map GameState.current_level
      = some 2 := by
  have h1 : advance_level_local s = some { s with
      current_level := 2, player_x := 50, player_y := 500,
      platforms := [⟨0, 550, 800, 50⟩, ⟨100, 400, 150, 20⟩,
        ⟨300, 300, 150, 20⟩, ⟨500, 200, 150, 20⟩],
      portal := none, score := 2 } := by
    unfold advance_level_local
    rw [hcl, hlv]
    rfl
  rw [h1, Option.some_bind]
  unfold advance_level_sync advance_level_local
  simp [hlv, maxLevelKey, initial_levels]

/-- Witness for C1 at a concrete level-1 game state. -/
theorem double_advance_applied_once_witness :
    ((advance_level_local
          { levels := initial_levels, current_level := 1,
            player_x := 50, player_y := 500, platforms := [], portal := none,
            score := 1, running := true }).bind advance_level_sync).map
      GameState.current_level = some 2 :=
  double_advance_applied_once _ rfl rfl

/-- C2: applying snapshot `S1` then `S2` to an initially empty store, with the
self identity known, stores exactly the identities of `S2` minus the self
identity (last snapshot wins for membership). -/
theorem last_snapshot_wins_membership (S1 S2 : Snapshot) (selfId pid : String) :
    containsKey (on_player_update (some selfId)
        (on_player_update (some selfId) [] S1) S2) pid = true ↔
      snapHasKey S2 pid = true ∧ ¬ pid = selfId := by
  rw [containsKey_on_player_update, containsKey_on_player_update]
  have hbase : containsKey ([] : Store) pid = false := rfl
  simp only [hbase, Bool.false_eq_true, false_or, Option.some.injEq]
  constructor
  · rintro ⟨⟨⟨_, hn⟩, _⟩ | ⟨_, hn⟩, hk⟩ <;> exact ⟨hk, fun hp => hn hp.symm⟩
  · rintro ⟨hk, hn⟩
    exact ⟨Or.inr ⟨hk, fun hp => hn hp.symm⟩, hk⟩

/-- C3: one interpolation step `lerp current target b` with blend factor
`b ∈ (0,1)` strictly decreases `|target - current|` when they differ, never
passes beyond the target (the error keeps its sign), and is a no-op when
`current = target`. -/
theorem lerp_interpolation_step (c t b : ℚ) (hb0 : 0 < b) (hb1 : b < 1) :
    (c ≠ t → |t - lerp c t b| < |t - c| ∧ 0 ≤ (t - lerp c t b) * (t - c)) ∧
      lerp c c b = c := by
  have key : t - lerp c t b = (t - c) * (1 - b) := by unfold lerp; ring
  constructor
  · intro hne
    constructor
    · rw [key, abs_mul, abs_of_pos (show (0:ℚ) < 1 - b by linarith)]
      have h2 : 0 < |t - c| := abs_pos.mpr (sub_ne_zero.mpr (fun hh => hne hh.symm))
      nlinarith [mul_pos h2 hb0]
    · rw [key]
      have hr : (t - c) * (1 - b) * (t - c) = (1 - b) * ((t - c) * (t - c)) := by ring
      rw [hr]
      exact mul_nonneg (by linarith) (mul_self_nonneg _)
  · unfold lerp; ring

/-- Witness for C3 at `current = 0`, `target = 1`, `b = 1/10`. -/
theorem lerp_interpolation_step_witness :
    |(1 : ℚ) - lerp 0 1 (1/10)| < |(1 : ℚ) - 0| :=
  ((lerp_interpolation_step 0 1 (1/10) (by norm_num) (by norm_num)).1
    (by norm_num)).1

/-- C4 counterexample: at elapsed time `t = 0` the throttle test
`elapsed > update_interval` is false, not true as the claim states. -/
theorem should_publish_at_zero_false :
    should_publish 0 update_interval = false := by
  norm_num [should_publish, update_interval]

/-- C4 (amended): with `interval = 0.05`, the throttle returns false for
every elapsed time in `[0, 0.05]` (in particular at `t = 0`) and true for
every elapsed time strictly greater than `0.05`. -/
theorem should_publish_characterization (t : ℚ) :
    (0 ≤ t → t ≤ update_interval → should_publish t update_interval = false) ∧
      (update_interval < t → should_publish t update_interval = true) := by
  constructor
  · intro _ h2
    unfold should_publish
    simp only [decide_eq_false_iff_not, not_lt]
    exact h2
  · intro h
    unfold should_publish
    simp only [decide_eq_true_eq]
    exact h

/-- Witness for C4's amended claim at `t = 0` and `t = 1`. -/
theorem should_publish_characterization_witness :
    should_publish 0 update_interval = false ∧
      should_publish 1 update_interval = true :=
  ⟨(should_publish_characterization 0).1 le_rfl (by norm_num [update_interval]),
   (should_publish_characterization 1).2 (by norm_num [update_interval])⟩

/-- C5: when `current_level` equals the maximum key of the level table, an
advance (local entry point or the networked `advance_level_sync`) changes
nothing but the `running` flag, which it sets to false; no level lookup is
performed, so no out-of-bounds access can occur (the result is `some _`,
never the `none` that models a `KeyError`). -/
theorem advance_at_max_level_terminal (s : GameState)
    (h : s.current_level = maxLevelKey s.levels) :
    advance_level_local s = some { s with running := false } ∧
      advance_level_sync s = some { s with running := false } := by
  have hloc : advance_level_local s = some { s with running := false } := by
    unfold advance_level_local
    rw [if_neg (by rw [h]; exact lt_irrefl _)]
  exact ⟨hloc, hloc⟩

/-- Witness for C5 at a concrete state sitting at the last level. -/
theorem advance_at_max_level_terminal_witness :
    advance_level_local
        { levels := initial_levels, current_level := 2,
          player_x := 50, player_y := 500, platforms := [], portal := none,
          score := 2, running := true } =
      some { levels := initial_levels, current_level := 2, player_x := 50,
             player_y := 500, platforms := [], portal := none, score := 2,
             running := false } :=
  (advance_at_max_level_terminal _ rfl).1

/-- C6: an advance from level `n` with level `n+1` defined is a transactional
swap: the post-state simultaneously has `current_level = n+1`, the player at
level `n+1`'s start, level `n+1`'s platforms and portal, and `score = n+1`,
with every other field unchanged; no partial update is possible. -/
theorem advance_transactional (s : GameState) (lvl : Level)
    (hlt : s.current_level < maxLevelKey s.levels)
    (hlk : lookupLevel s.levels (s.current_level + 1) = some lvl) :
    advance_level_local s = some { s with
      current_level := s.current_level + 1,
      player_x := lvl.start.1, player_y := lvl.start.2,
      platforms := lvl.platforms, portal := lvl.portal,
      score := s.current_level + 1 } := by
  unfold advance_level_local
  rw [if_pos hlt, hlk]

/-- Witness for C6 advancing a concrete state from level 1 to level 2. -/
theorem advance_transactional_witness :
    advance_level_local
        { levels := initial_levels, current_level := 1,
          player_x := 700, player_y := 470, platforms := [], portal := none,
          score := 1, running := true } =
      some { levels := initial_levels, current_level := 2, player_x := 50,
             player_y := 500,
             platforms := [⟨0, 550, 800, 50⟩, ⟨100, 400, 150, 20⟩,
               ⟨300, 300, 150, 20⟩, ⟨500, 200, 150, 20⟩],
             portal := none, score := 2, running := true } :=
  advance_transactional _
    { start := (50, 500),
      platforms := [⟨0, 550, 800, 50⟩, ⟨100, 400, 150, 20⟩,
        ⟨300, 300, 150, 20⟩, ⟨500, 200, 150, 20⟩],
      portal := none }
    (by norm_num [maxLevelKey, initial_levels]) rfl

/-- C7: an identity not yet stored and different from the self identity,
reported at `(x, y)` by a snapshot, is created with
`current = target = (x, y)`: it renders immediately at its reported position. -/
theorem new_entity_snap_in (selfId : Option String) (st : Store)
    (snap : Snapshot) (pid : String) (x y : ℚ)
    (hnd : (snap.map Prod.fst).Nodup) (hself : ¬ selfId = some pid)
    (hst : containsKey st pid = false) (hsnap : snapLookup snap pid = some ⟨x, y⟩) :
    lookupEntry (on_player_update selfId st snap) pid = some ⟨x, y, x, y⟩ :=
  on_player_update_new selfId st snap pid x y hnd hself hst hsnap

/-- Witness for C7: a first appearance at `(100, 200)`. -/
theorem new_entity_snap_in_witness :
    lookupEntry (on_player_update (some "me") [] [("alice", ⟨100, 200⟩)])
      "alice" = some ⟨100, 200, 100, 200⟩ :=
  new_entity_snap_in (some "me") [] [("alice", ⟨100, 200⟩)] "alice" 100 200
    (by simp) (by simp) rfl (by simp [snapLookup])

/-- C8: for an identity already stored, applying a snapshot updates only the
target position and leaves the current position untouched; applying the same
snapshot twice yields the same target as after the first application and
never resets the current position. -/
theorem resend_updates_target_only (selfId : Option String) (st : Store)
    (snap : Snapshot) (pid : String) (x y : ℚ) (ent : RemoteEntry)
    (hnd : (snap.map Prod.fst).Nodup) (hself : ¬ selfId = some pid)
    (hst : lookupEntry st pid = some ent) (hsnap : snapLookup snap pid = some ⟨x, y⟩) :
    lookupEntry (on_player_update selfId st snap) pid =
        some ⟨ent.current_x, ent.current_y, x, y⟩ ∧
      lookupEntry (on_player_update selfId (on_player_update selfId st snap) snap)
        pid = some ⟨ent.current_x, ent.current_y, x, y⟩ := by
  have h1 := on_player_update_existing selfId st snap pid x y ent hnd hself hst hsnap
  exact ⟨h1, on_player_update_existing selfId _ snap pid x y
    ⟨ent.current_x, ent.current_y, x, y⟩ hnd hself h1 hsnap⟩

/-- Witness for C8: a stored entity re-targeted by the same snapshot twice. -/
theorem resend_updates_target_only_witness :
    lookupEntry (on_player_update (some "me") [("alice", ⟨1, 2, 3, 4⟩)]
        [("alice", ⟨7, 8⟩)]) "alice" = some ⟨1, 2, 7, 8⟩ ∧
      lookupEntry (on_player_update (some "me")
        (on_player_update (some "me") [("alice", ⟨1, 2, 3, 4⟩)]
          [("alice", ⟨7, 8⟩)]) [("alice", ⟨7, 8⟩)]) "alice" = some ⟨1, 2, 7, 8⟩ :=
  resend_updates_target_only (some "me") [("alice", ⟨1, 2, 3, 4⟩)]
    [("alice", ⟨7, 8⟩)] "alice" 7 8 ⟨1, 2, 3, 4⟩
    (by simp) (by simp) (by simp [lookupEntry]) (by simp [snapLookup])

/-- C9: `emit_update` sends a `player_update` message iff the client has a
`connected` attribute reporting true; otherwise it is a silent no-op that
sends nothing and leaves the socket state unchanged (it never queues). -/
theorem emit_update_connected_gate (sio : SioState) (d : PlayerMsg) :
    (emit_update sio d).1 = sio ∧
      ((emit_update sio d).2 = [("player_update", d)] ↔
        sio.connected_attr = some true) ∧
      (¬ sio.connected_attr = some true → (emit_update sio d).2 = []) := by
  unfold emit_update
  by_cases h : sio.connected_attr = some true
  · simp [h]
  · simp [h]

/-- Witness for C9 on a disconnected client. -/
theorem emit_update_connected_gate_witness :
    (emit_update ⟨some false⟩ ⟨0, 0, "Player", 0⟩).2 = [] :=
  (emit_update_connected_gate ⟨some false⟩ ⟨0, 0, "Player", 0⟩).2.2 (by simp)

/-- C10: while `local_player_id` is still `None`, the self-filter skips no
snapshot entry: every identity the snapshot contains ends up stored as a
remote entity (including the id the server will later assign to this client). -/
theorem no_self_filter_before_id (st : Store) (snap : Snapshot) (pid : String)
    (h : snapHasKey snap pid = true) :
    containsKey (on_player_update none st snap) pid = true := by
  rw [containsKey_on_player_update]
  exact ⟨Or.inr ⟨h, by simp⟩, h⟩

/-- Witness for C10: the client's own future id, present in a snapshot, is
stored while the id is unassigned. -/
theorem no_self_filter_before_id_witness :
    containsKey (on_player_update none [] [("me", ⟨0, 0⟩)]) "me" = true :=
  no_self_filter_before_id [] [("me", ⟨0, 0⟩)] "me" (by simp [snapHasKey])

end MultiplayerGame
